import Mathlib

/-!
Verification of the Game-of-24 Tree-of-Thoughts notebooks.

Shallow embedding conventions:
- Python floats are modelled as exact rationals (`ℚ`); float rounding is out of scope
  for the structural claims checked here.
- Python exceptions are modelled with `Except`: an uncaught exception is an `.error`
  value (`ComputeError` for the evaluator, `PyErr` for IndexError/ValueError).
- Python dict-shaped state is modelled with structures; optional dict keys are `Option`
  fields defaulting to `none`.
- The Python list used as an evaluation stack (append/pop at the end) is modelled as a
  cons list with the top of the stack at the head; the Python expression `stack[0]`
  (the bottom of the stack) is therefore `List.getLast?`.
- Python `sorted` (a stable sort) is modelled with `List.insertionSort`, which inserts
  each earlier element in front of later elements with an equivalent key.
- The external LLM call (`solver.invoke`) is abstracted as a function
  `SolverRequest → Except Unit GuessEquations`; `.error` covers a raised exception,
  timeout, or malformed structured output.
- String renderings (`str(...)` of candidates) are approximated: their exact text is
  irrelevant to every claim below, only whether a hint is present or empty.
-/

namespace GameOf24

/-- Operator symbols: Python `OperatorType = Literal["+", "-", "*", "/"]`. -/
inductive Op
  | add
  | sub
  | mul
  | div
deriving DecidableEq, Repr

/-- RPN token: Python `TokenType = Union[float, OperatorType]`, a tagged union of a
numeric literal and an operator symbol. -/
inductive Token
  | num (x : ℚ)
  | op (o : Op)
deriving DecidableEq, Repr

/-- Failure modes of `Equation.compute`:
`stackUnderflow` is the Python IndexError from `stack.pop()` on a too-small stack,
`divisionByZero` is the Python ZeroDivisionError from `operator.truediv`,
`emptyStack` is the Python IndexError from `stack[0]` on an empty final stack. -/
inductive ComputeError
  | stackUnderflow
  | divisionByZero
  | emptyStack
deriving DecidableEq, Repr

/-- The op_funcs table `{+: add, -: sub, *: mul, /: truediv}`; `a` is the operand pushed
earlier (popped second), `b` the operand popped first. -/
def applyOp : Op → ℚ → ℚ → Except ComputeError ℚ
  | .add, a, b => .ok (a + b)
  | .sub, a, b => .ok (a - b)
  | .mul, a, b => .ok (a * b)
  | .div, a, b => if b = 0 then .error .divisionByZero else .ok (a / b)

/-- The token loop of `Equation.compute`: a literal is pushed; an operator pops
`b, a = stack.pop(), stack.pop()` and pushes `op(a, b)`. The head of the list is the
top of the stack. -/
def computeAux : List Token → List ℚ → Except ComputeError (List ℚ)
  | [], stack => .ok stack
  | .num x :: ts, stack => computeAux ts (x :: stack)
  | .op o :: ts, b :: a :: stack =>
    match applyOp o a b with
    | .ok r => computeAux ts (r :: stack)
    | .error e => .error e
  | .op _ :: _, _ => .error .stackUnderflow

/-- Pydantic model `Equation` with its `tokens` field. -/
structure Equation where
  tokens : List Token
deriving DecidableEq, Repr

/-- Python `Equation.compute`: runs the token loop on an empty stack and returns
`stack[0]` — the BOTTOM of the final stack (its last element in this encoding); a final
stack with several values is not rejected. -/
def Equation.compute (e : Equation) : Except ComputeError ℚ :=
  match computeAux e.tokens [] with
  | .ok stack =>
    match stack.getLast? with
    | some v => .ok v
    | none => .error .emptyStack
  | .error err => .error err

/-- Stack-size automaton for RPN token sequences: a literal grows the stack by one, an
operator needs at least two values and shrinks it by one; `none` marks an underflow. -/
def stackCount : List Token → Nat → Option Nat
  | [], n => some n
  | .num _ :: ts, n => stackCount ts (n + 1)
  | .op _ :: ts, n + 2 => stackCount ts (n + 1)
  | .op _ :: _, _ => none

/-- Structural well-formedness of an RPN token sequence: starting from an empty stack,
every operator finds at least two values and exactly one value remains at the end. -/
def WellFormedRPN (ts : List Token) : Prop := stackCount ts 0 = some 1

instance : DecidablePred WellFormedRPN := fun ts =>
  inferInstanceAs (Decidable (stackCount ts 0 = some 1))

/-- Recognizer for literal tokens. -/
def isNumTok : Token → Bool
  | .num _ => true
  | .op _ => false

/-- Recognizer for operator tokens. -/
def isOpTok : Token → Bool
  | .num _ => false
  | .op _ => true

/-- Python `Candidate` NamedTuple: an equation with optional score and feedback. -/
structure Candidate where
  candidate : Equation
  score : Option ℚ := none
  feedback : Option String := none
deriving DecidableEq, Repr

/-- Python `ScoredCandidate`: a Candidate whose score and feedback are mandatory. -/
structure ScoredCandidate where
  candidate : Equation
  score : ℚ
  feedback : String
deriving DecidableEq, Repr

/-- In Python, ScoredCandidate is a subclass of Candidate; this is the corresponding
upcast used where a scored frontier member flows into a Candidate position. -/
def ScoredCandidate.toCandidate (c : ScoredCandidate) : Candidate :=
  { candidate := c.candidate, score := some c.score, feedback := some c.feedback }

/-- Whitespace splitter for `problem.split()`: splits on runs of spaces. -/
def splitWSAux : List Char → List Char → List (List Char)
  | [], acc => if acc.isEmpty then [] else [acc.reverse]
  | c :: cs, acc =>
    if c = ' ' then
      (if acc.isEmpty then splitWSAux cs [] else acc.reverse :: splitWSAux cs [])
    else splitWSAux cs (c :: acc)

/-- Decimal digit value of a character. -/
def digitVal (c : Char) : Option ℕ :=
  if c.isDigit then some (c.toNat - 48) else none

/-- Accumulating decimal parser for one whitespace-separated word (Python `int(w)`;
a non-numeric word raises in Python — no settled claim involves such input). -/
def digitsToNat : List Char → Option ℕ → Option ℕ
  | [], acc => acc
  | c :: cs, acc =>
    match digitVal c with
    | some d => digitsToNat cs (some (acc.getD 0 * 10 + d))
    | none => none

/-- Python `list(map(int, problem.split()))`. -/
def parseNumbers (problem : String) : List ℤ :=
  (splitWSAux problem.data []).filterMap fun w => (digitsToNat w none).map Int.ofNat

/-- Python `sorted` on a list of numbers (ascending). -/
def sortRat (l : List ℚ) : List ℚ := l.insertionSort (· ≤ ·)

/-- Literal tokens of an expression, in order: Python
`[token for token in tokens if isinstance(token, float)]`. -/
def usedNumbers (tokens : List Token) : List ℚ :=
  tokens.filterMap fun t =>
    match t with
    | .num x => some x
    | .op _ => none

/-- Cast of the parsed problem integers to rationals; Python compares float and int
lists elementwise (`3.0 == 3`), which the cast models. -/
def ratOfInts (numbers : List ℤ) : List ℚ := numbers.map fun n : ℤ => (n : ℚ)

/-- Python `is_valid_equation(tokens, numbers)`: the sorted multiset of literal tokens
equals the sorted multiset of the problem numbers. -/
def is_valid_equation (tokens : List Token) (numbers : List ℤ) : Bool :=
  decide (sortRat (usedNumbers tokens) = sortRat (ratOfInts numbers))

/-- Feedback string of the operand-mismatch branch of `compute_score`. -/
def mismatchFeedback : String := "The equation must use all 4 numbers exactly once."

/-- Rendering of a compute failure (Python `repr(e)`), approximated. -/
def errStr : ComputeError → String
  | .stackUnderflow => "IndexError: pop from empty list"
  | .divisionByZero => "ZeroDivisionError: float division by zero"
  | .emptyStack => "IndexError: list index out of range"

/-- Python `compute_score(problem, candidate)`: operand-multiset check first (returning
score 0 with the mismatch feedback, without evaluating); otherwise evaluate and score
`1 / (1 + |24 - result|)`, with any evaluation error recovered as score 0. -/
def compute_score (problem : String) (candidate : Candidate) : ScoredCandidate :=
  let numbers := parseNumbers problem
  let used_numbers := usedNumbers candidate.candidate.tokens
  if sortRat used_numbers ≠ sortRat (ratOfInts numbers) then
    { candidate := candidate.candidate, score := 0, feedback := mismatchFeedback }
  else
    match candidate.candidate.compute with
    | .ok result =>
      { candidate := candidate.candidate, score := 1 / (1 + |24 - result|),
        feedback := "Result: " ++ toString result }
    | .error e =>
      { candidate := candidate.candidate, score := 0,
        feedback := "Invalid equation. Error: " ++ errStr e }

/-- The four operator symbols in source order, as in
`itertools.product(["+", "-", "*", "/"], repeat=3)`. -/
def opList : List Op := [.add, .sub, .mul, .div]

/-- `itertools.product(ops, repeat=3)`: all 64 operator triples, last coordinate
varying fastest. -/
def opCombos : List (Op × Op × Op) :=
  opList.flatMap fun o1 => opList.flatMap fun o2 => opList.map fun o3 => (o1, o2, o3)

/-- The loop body of `generate_heuristic_candidates` for one permutation `a b c d` and
one operator triple: build the left-chain RPN `[a, b, op1, c, op2, d, op3]` and keep
it when its value is finite and within 10 of 24 (`math.isfinite` is always true in
the exact-rational model; a raised evaluation error is skipped by the `except`). -/
def heuTriple (a b c d : ℤ) (oc : Op × Op × Op) : Option Equation :=
  let tokens := [Token.num (a : ℚ), Token.num (b : ℚ), Token.op oc.1,
                 Token.num (c : ℚ), Token.op oc.2.1,
                 Token.num (d : ℚ), Token.op oc.2.2]
  match (Equation.mk tokens).compute with
  | .ok v => if |v - 24| < 10 then some (Equation.mk tokens) else none
  | .error _ => none

/-- The uncapped `equations` list accumulated by the loops of
`generate_heuristic_candidates`: every permutation of the numbers crossed with every
operator triple. `List.permutations` enumerates in a different order than
`itertools.permutations`; no settled claim depends on the order of the capped list.
Python indexes `nums[0..3]` and would raise for problems with fewer than four
numbers; such permutations are skipped here (no settled claim involves such input). -/
def heuristicPool (numbers : List ℤ) : List Equation :=
  numbers.permutations.flatMap fun nums =>
    opCombos.filterMap fun oc =>
      match nums with
      | [a, b, c, d] => heuTriple a b c d oc
      | _ => none

/-- Python `generate_heuristic_candidates(numbers)`: the accumulated equations capped
at the first 10 (`equations[:10]`). -/
def generate_heuristic_candidates (numbers : List ℤ) : List Equation :=
  (heuristicPool numbers).take 10

/-- Pydantic schema `GuessEquations` returned by the structured-output LLM call. -/
structure GuessEquations where
  reasoning : String
  equations : List Equation
deriving DecidableEq, Repr

/-- The mapping passed to `solver.invoke`: the problem text, the candidate hint string,
and the number of guesses requested. -/
structure SolverRequest where
  problem : String
  candidate : String
  k : ℤ
deriving DecidableEq, Repr

/-- The `configurable` sub-dict of a run config; keys are optional. The heu batch run
also stores a `depth` key here (which `_ensure_configurable` never reads). -/
structure ConfigurableDict where
  thread_id : Option String := none
  depth : Option ℤ := none
  max_depth : Option ℤ := none
  threshold : Option ℚ := none
  k : Option ℤ := none
  beam_size : Option ℕ := none
deriving Repr

/-- A RunnableConfig dict: the `configurable` sub-dict plus the top-level keys the code
reads (`config.get("threshold", ...)` reads THIS level, where no caller ever puts a
threshold). -/
structure RunnableConfig where
  configurable : ConfigurableDict := {}
  threshold : Option ℚ := none
  recursion_limit : Option ℕ := none
deriving Repr

/-- The resolved search parameters. -/
structure Configuration where
  max_depth : ℤ
  threshold : ℚ
  k : ℤ
  beam_size : ℕ
deriving Repr, DecidableEq

/-- heu `_ensure_configurable`: max_depth/k/beam_size come from `configurable` with
defaults 10/5/3, but threshold is read from the TOP-LEVEL config mapping
(`config.get("threshold", 0.9)`), not from `configurable`. -/
def ensure_configurable_heu (config : RunnableConfig) : Configuration :=
  { max_depth := config.configurable.max_depth.getD 10,
    threshold := config.threshold.getD 0.9,
    k := config.configurable.k.getD 5,
    beam_size := config.configurable.beam_size.getD 3 }

/-- CoT `_ensure_configurable`: identical shape, with max_depth defaulting to 50; it
reads threshold from the top-level config mapping as well. -/
def ensure_configurable_CoT (config : RunnableConfig) : Configuration :=
  { max_depth := config.configurable.max_depth.getD 50,
    threshold := config.threshold.getD 0.9,
    k := config.configurable.k.getD 5,
    beam_size := config.configurable.beam_size.getD 3 }

/-- Python `ExpansionState` (ToTState plus an optional seed key). -/
structure ExpansionState where
  problem : String
  candidates : List Candidate := []
  scored_candidates : List ScoredCandidate := []
  depth : ℤ := 0
  seed : Option Candidate := none
deriving Repr

/-- The dict actually dispatched by the CoT `should_terminate`:
`{**state, "somevalseed": candidate}` — the candidate is stored under the mistyped key
`somevalseed`, and no `seed` key is written. -/
structure ExpansionStateCoT extends ExpansionState where
  somevalseed : Option ScoredCandidate := none
deriving Repr

/-- Rendering of one token, approximating Python str/repr. -/
def tokenStr : Token → String
  | .num x => toString x
  | .op o =>
    match o with
    | .add => "+"
    | .sub => "-"
    | .mul => "*"
    | .div => "/"

/-- Rendering of a token list, approximating Python str of a list. -/
def tokensStr (ts : List Token) : String :=
  "[" ++ String.intercalate ", " (ts.map tokenStr) ++ "]"

/-- Python `Candidate.__str__`: shows the tokens, the computed value (or the error),
and the reward. Exact text is approximated; no claim depends on it. -/
def candidateStr (c : Candidate) : String :=
  let computed :=
    match c.candidate.compute with
    | .ok v => toString v
    | .error e => "Invalid equation: " ++ tokensStr c.candidate.tokens ++ "; Error: " ++ errStr e
  let reward :=
    match c.score with
    | some s => toString s
    | none => "None"
  "Equation(" ++ tokensStr c.candidate.tokens ++ ") = " ++ computed ++ " (Reward: " ++ reward ++ ")"

/-- Rendering of a candidate list (Python str of a list of candidates), approximated. -/
def candidateListStr (cs : List Candidate) : String :=
  "[" ++ String.intercalate ", " (cs.map candidateStr) ++ "]"

/-- The pre-call part of heu `expand`: the list bound to `candidates` before the LLM
call (empty with a seed, the heuristic candidates without one) and the hint string
`candidate_str` built alongside it. -/
def heu_pre (state : ExpansionState) : List Candidate × String :=
  match state.seed with
  | some sd =>
    ([], "\n\n the following are promising solution canditates that might help you" ++
      candidateStr sd)
  | none =>
    let heuristic_equations := generate_heuristic_candidates (parseNumbers state.problem)
    let cs := heuristic_equations.map fun e => ({ candidate := e } : Candidate)
    (cs, "\n\n the following are promising solution canditates that might help you" ++
      candidateListStr cs)

/-- The request heu `expand` passes to `solver.invoke`. -/
def heu_request (state : ExpansionState) (config : RunnableConfig) : SolverRequest :=
  { problem := state.problem, candidate := (heu_pre state).2,
    k := (ensure_configurable_heu config).k }

/-- heu `expand`: on a successful LLM call the candidates are the proposals that pass
`is_valid_equation` (invalid ones silently dropped); on a raised exception the
`except: pass` leaves the pre-call list in place — empty when a seed was present, the
heuristic candidates when not. -/
def expand_heu (solver : SolverRequest → Except Unit GuessEquations)
    (state : ExpansionState) (config : RunnableConfig) : List Candidate :=
  let problem_numbers := parseNumbers state.problem
  match solver (heu_request state config) with
  | .ok equation_submission =>
    (equation_submission.equations.filter fun e =>
      is_valid_equation e.tokens problem_numbers).map fun e => ({ candidate := e } : Candidate)
  | .error _ => (heu_pre state).1

/-- The request CoT `expand` passes to `solver.invoke`: the hint is empty when the
state has no `seed` key, else the rendered seed. -/
def cot_request (state : ExpansionStateCoT) (config : RunnableConfig) : SolverRequest :=
  { problem := state.problem,
    candidate :=
      match state.seed with
      | none => ""
      | some sd => "\n\n" ++ candidateStr sd,
    k := (ensure_configurable_CoT config).k }

/-- CoT `expand`: on a raised exception it returns an empty candidate list; on success
every proposal is wrapped as a Candidate (no validity filter in this variant). -/
def expand_CoT (solver : SolverRequest → Except Unit GuessEquations)
    (state : ExpansionStateCoT) (config : RunnableConfig) : List Candidate :=
  match solver (cot_request state config) with
  | .ok equation_submission =>
    equation_submission.equations.map fun e => ({ candidate := e } : Candidate)
  | .error _ => []

/-- The graph state at the prune/termination phase. Python reuses the `candidates`
field for both unscored candidates (post-expand) and the scored frontier (post-prune);
this phase view types it with ScoredCandidate, which is what it holds there. -/
structure ToTState where
  problem : String
  candidates : List ScoredCandidate := []
  scored_candidates : List ScoredCandidate := []
  depth : ℤ := 0
deriving Repr

/-- Python Exception kinds surfaced by the unguarded code paths. -/
inductive PyErr
  | indexError
  | valueError
deriving DecidableEq, Repr

/-- Outcome of heu `should_terminate`: the `__end__` edge or one `Send("expand", ...)`
per frontier member. -/
inductive TermHeu
  | endRun
  | sends (payloads : List ExpansionState)

/-- heu `should_terminate`: guarded on an empty candidate list (returns `__end__`),
otherwise terminates when `candidates[0].score >= threshold` or
`depth >= max_depth`, else dispatches one expansion per frontier member with the
member stored under the `seed` key. -/
def should_terminate_heu (state : ToTState) (config : RunnableConfig) : TermHeu :=
  let configurable := ensure_configurable_heu config
  match state.candidates with
  | [] => .endRun
  | c :: _ =>
    if c.score ≥ configurable.threshold ∨ state.depth ≥ configurable.max_depth then .endRun
    else
      .sends (state.candidates.map fun cand =>
        { problem := state.problem,
          candidates := state.candidates.map ScoredCandidate.toCandidate,
          scored_candidates := state.scored_candidates,
          depth := state.depth,
          seed := some cand.toCandidate })

/-- Outcome of CoT `should_terminate` when it does not raise. -/
inductive TermCoT
  | endRun
  | sends (payloads : List ExpansionStateCoT)

/-- CoT `should_terminate`: indexes `state["candidates"][0]` without an empty guard
(IndexError on an empty frontier), and dispatches each frontier member under the
mistyped key `somevalseed` — the `seed` key that `expand` reads is never written. -/
def should_terminate_CoT (state : ToTState) (config : RunnableConfig) :
    Except PyErr TermCoT :=
  let configurable := ensure_configurable_CoT config
  match state.candidates with
  | [] => .error .indexError
  | c :: _ =>
    if c.score ≥ configurable.threshold ∨ state.depth ≥ configurable.max_depth then
      .ok .endRun
    else
      .ok (.sends (state.candidates.map fun cand =>
        { toExpansionState :=
            { problem := state.problem,
              candidates := state.candidates.map ScoredCandidate.toCandidate,
              scored_candidates := state.scored_candidates,
              depth := state.depth,
              seed := none },
          somevalseed := some cand }))

/-- An update value for a list-typed state key: a list of items or the `"clear"`
sentinel. -/
inductive UpdateArg (α : Type)
  | items (l : List α)
  | clear
deriving DecidableEq, Repr

/-- Python `update_candidates` reducer: `None` keeps the existing list, `"clear"`
empties it, and a list is concatenated onto the existing one. -/
def update_candidates {α : Type} (existing : List α) (updates : Option (UpdateArg α)) :
    List α :=
  match updates with
  | none => existing
  | some .clear => []
  | some (.items l) => existing ++ l

/-- The sort key comparison of `prune`: descending by score (`candidate[1]`). -/
def scoreGE (a b : ScoredCandidate) : Prop := b.score ≤ a.score

instance : DecidableRel scoreGE := fun a b => inferInstanceAs (Decidable (b.score ≤ a.score))

instance : IsTotal ScoredCandidate scoreGE := ⟨fun a b => le_total b.score a.score⟩

instance : IsTrans ScoredCandidate scoreGE :=
  ⟨fun _ _ _ h1 h2 => le_trans h2 h1⟩

/-- Python `sorted(scored_candidates, key=lambda c: c[1], reverse=True)`: a stable
descending sort by score (equal scores keep encounter order). -/
def pruneSort (scored : List ScoredCandidate) : List ScoredCandidate :=
  scored.insertionSort scoreGE

/-- The update dict returned by `prune`. -/
structure PruneUpdate where
  candidates : List ScoredCandidate
  scored_candidates : UpdateArg ScoredCandidate
  depth : ℤ

/-- Python `prune`: sort the scored candidates descending by score, take the first
`beam_size`, clear `scored_candidates`, and contribute 1 to `depth` (whose reducer is
`operator.add`). -/
def prune (state : ToTState) (config : RunnableConfig) : PruneUpdate :=
  let beam_size := (ensure_configurable_heu config).beam_size
  let organized := pruneSort state.scored_candidates
  { candidates := organized.take beam_size,
    scored_candidates := .clear,
    depth := 1 }

/-- The state after applying prune's update dict through the reducers:
`candidates`/`scored_candidates` via `update_candidates`, `depth` via `operator.add`. -/
def applyPrune (state : ToTState) (config : RunnableConfig) : ToTState :=
  let u := prune state config
  { state with
    candidates := update_candidates state.candidates (some (.items u.candidates)),
    scored_candidates := update_candidates state.scored_candidates (some u.scored_candidates),
    depth := state.depth + u.depth }

/-- Python `max(candidates, key=lambda c: c.score)`: the first element with maximal
score; raises ValueError on an empty sequence. -/
def bestCandidate (candidates : List ScoredCandidate) : Except PyErr ScoredCandidate :=
  match candidates with
  | [] => .error .valueError
  | c :: rest => .ok (rest.foldl (fun acc x => if acc.score < x.score then x else acc) c)

/-- The run-result record built by `run_tot_on_problem`. -/
structure RunResult where
  solved : Bool
  depth : ℤ
  best_score : ℚ
  equation : String
  feedback : String
deriving Repr

/-- The result-extraction tail of `run_tot_on_problem`, applied to the final graph
state: select the best candidate with `max` (ValueError on an empty list) and read the
threshold from `config["configurable"].get("threshold", 0.9)`. -/
def run_tot_extract (final : ToTState) (config : RunnableConfig) : Except PyErr RunResult :=
  match bestCandidate final.candidates with
  | .ok best =>
    .ok { solved := best.score ≥ config.configurable.threshold.getD 0.9,
          depth := final.depth,
          best_score := best.score,
          equation := tokensStr best.candidate.tokens,
          feedback := best.feedback }
  | .error e => .error e

/-- The engine-level failure of the spec: the hard iteration ceiling was exceeded
without reaching TERMINATE. -/
inductive SearchError
  | searchExhausted
deriving DecidableEq, Repr

/-- The per-round loop state: the scored frontier and the depth counter. -/
structure LoopState where
  frontier : List ScoredCandidate
  depth : ℤ
deriving Repr

/-- One full round of the heu graph: expand once per seed (a single empty seed when the
frontier is empty, i.e. round 0), pool the previous frontier with the new candidates
(the append reducer on `candidates`), score the pool, and prune to the beam. -/
def stepRound (solver : SolverRequest → Except Unit GuessEquations) (problem : String)
    (config : RunnableConfig) (s : LoopState) : LoopState :=
  let seeds : List (Option Candidate) :=
    if s.frontier.isEmpty then [none] else s.frontier.map fun c => some c.toCandidate
  let newCands := seeds.flatMap fun sd =>
    expand_heu solver { problem := problem, depth := s.depth, seed := sd } config
  let pool := s.frontier.map ScoredCandidate.toCandidate ++ newCands
  let scored := pool.map fun c => compute_score problem c
  let beam := (ensure_configurable_heu config).beam_size
  { frontier := (pruneSort scored).take beam, depth := s.depth + 1 }

/-- Whether the termination check ends the run at the given post-round state. -/
def roundEnds (problem : String) (config : RunnableConfig) (s : LoopState) : Bool :=
  match should_terminate_heu
      { problem := problem, candidates := s.frontier, depth := s.depth } config with
  | .endRun => true
  | .sends _ => false

/-- Modelled from the spec: the round-loop engine with its hard iteration ceiling. The
loop executor (the langgraph runtime, whose `recursion_limit` raises
GraphRecursionError) is library code not present under src/ — only its callers are.
Per the spec, the engine counts iterations against a ceiling independent of
`max_depth` and fails with `SearchExhaustedError` when the ceiling is exceeded without
reaching TERMINATE. The round body (expand, score, prune, termination check) is
embedded from the source above. -/
def runLoop (solver : SolverRequest → Except Unit GuessEquations) (problem : String)
    (config : RunnableConfig) : ℕ → LoopState → Except SearchError LoopState
  | 0, _ => .error .searchExhausted
  | fuel + 1, s =>
    let s1 := stepRound solver problem config s
    if roundEnds problem config s1 then .ok s1
    else runLoop solver problem config fuel s1

/-- The config dict built by heu `run_tot_on_many_problems`: note that the threshold
0.99 is supplied INSIDE `configurable` (and no top-level threshold key exists). -/
def heuBatchConfig : RunnableConfig :=
  { configurable :=
      { thread_id := some "eval_batch", depth := some 10, threshold := some 0.99,
        k := some 5, beam_size := some 3 } }

/-- A concrete scored candidate used to exercise the CoT dispatch: score 1/2 is below
every threshold in play, so the search continues. -/
def cotScored : ScoredCandidate :=
  { candidate := { tokens := [Token.num 1, Token.num 1, Token.op .mul,
                              Token.num 4, Token.op .mul, Token.num 6, Token.op .sub] },
    score := 1/2,
    feedback := "Result: -2" }

/-- A concrete non-terminal CoT state: one frontier member below the threshold at a
depth below the budget. -/
def cotState : ToTState :=
  { problem := "1 1 4 6", candidates := [cotScored], depth := 1 }

/-- The expansion payload the CoT dispatch builds for `cotState`s single frontier
member: the candidate sits under `somevalseed` and no `seed` is present. -/
def cotPayload : ExpansionStateCoT :=
  { toExpansionState :=
      { problem := "1 1 4 6",
        candidates := [cotScored.toCandidate],
        scored_candidates := [],
        depth := 1,
        seed := none },
    somevalseed := some cotScored }

/-- Distinct scored candidates sharing the top score 0.9, for the stable top-k
example of the spec (scores [0.9, 0.9, 0.3, 0.1], beam_size 2). -/
def c8A : ScoredCandidate :=
  { candidate := Equation.mk [Token.num 4], score := 0.9, feedback := "a" }

/-- Second candidate with the shared top score. -/
def c8B : ScoredCandidate :=
  { candidate := Equation.mk [Token.num 5], score := 0.9, feedback := "b" }

/-- Third example candidate, score 0.3. -/
def c8C : ScoredCandidate :=
  { candidate := Equation.mk [Token.num 6], score := 0.3, feedback := "c" }

/-- Fourth example candidate, score 0.1. -/
def c8D : ScoredCandidate :=
  { candidate := Equation.mk [Token.num 7], score := 0.1, feedback := "d" }

/-- A post-score state carrying the example scored candidates, with the candidates
list cleared as the score node leaves it. -/
def c8State : ToTState :=
  { problem := "1 1 4 6", candidates := [],
    scored_candidates := [c8A, c8B, c8C, c8D], depth := 5 }

/-- A config with beam_size 2 for the stable top-k example. -/
def c8Config : RunnableConfig := { configurable := { beam_size := some 2 } }

lemma applyOp_error {o : Op} {a b : ℚ} {e : ComputeError} (h : applyOp o a b = .error e) :
    e = .divisionByZero := by
  cases o with
  | add => exact Except.noConfusion h
  | sub => exact Except.noConfusion h
  | mul => exact Except.noConfusion h
  | div =>
    by_cases hb : b = 0
    · simp [applyOp, hb] at h
      exact h.symm
    · simp [applyOp, hb] at h

lemma computeAux_of_stackCount_some :
    ∀ (ts : List Token) (stack : List ℚ) (m : Nat),
      stackCount ts stack.length = some m →
      (∃ s2, computeAux ts stack = .ok s2 ∧ s2.length = m) ∨
        computeAux ts stack = .error .divisionByZero := by
  intro ts
  induction ts with
  | nil =>
    intro stack m h
    left
    exact ⟨stack, rfl, by simpa [stackCount] using h⟩
  | cons t ts ih =>
    intro stack m h
    cases t with
    | num x =>
      have h2 : stackCount ts (x :: stack).length = some m := by
        simpa [stackCount] using h
      simpa [computeAux] using ih (x :: stack) m h2
    | op o =>
      match stack with
      | [] => simp [stackCount] at h
      | [a] => simp [stackCount] at h
      | b :: a :: rest =>
        have h2 : stackCount ts (rest.length + 1) = some m := by
          simpa [stackCount] using h
        cases hap : applyOp o a b with
        | ok r =>
          have h3 : stackCount ts (r :: rest).length = some m := by simpa using h2
          simpa [computeAux, hap] using ih (r :: rest) m h3
        | error e =>
          right
          have he : e = .divisionByZero := applyOp_error hap
          simp [computeAux, hap, he]

lemma computeAux_of_stackCount_none :
    ∀ (ts : List Token) (stack : List ℚ),
      stackCount ts stack.length = none →
      computeAux ts stack = .error .stackUnderflow ∨
        computeAux ts stack = .error .divisionByZero := by
  intro ts
  induction ts with
  | nil => intro stack h; simp [stackCount] at h
  | cons t ts ih =>
    intro stack h
    cases t with
    | num x =>
      have h2 : stackCount ts (x :: stack).length = none := by
        simpa [stackCount] using h
      simpa [computeAux] using ih (x :: stack) h2
    | op o =>
      match stack with
      | [] => left; rfl
      | [a] => left; rfl
      | b :: a :: rest =>
        have h2 : stackCount ts (rest.length + 1) = none := by
          simpa [stackCount] using h
        cases hap : applyOp o a b with
        | ok r =>
          have h3 : stackCount ts (r :: rest).length = none := by simpa using h2
          simpa [computeAux, hap] using ih (r :: rest) h3
        | error e =>
          right
          have he : e = .divisionByZero := applyOp_error hap
          simp [computeAux, hap, he]

lemma stackCount_counts :
    ∀ (ts : List Token) (n m : Nat), stackCount ts n = some m →
      n + ts.countP isNumTok = m + ts.countP isOpTok := by
  intro ts
  induction ts with
  | nil =>
    intro n m h
    simp only [stackCount, Option.some.injEq] at h
    simp [h]
  | cons t ts ih =>
    intro n m h
    cases t with
    | num x =>
      have h2 := ih (n + 1) m (by simpa [stackCount] using h)
      simp [List.countP_cons, isNumTok, isOpTok] at h2 ⊢
      omega
    | op o =>
      match n with
      | 0 => simp [stackCount] at h
      | 1 => simp [stackCount] at h
      | k + 2 =>
        have h2 := ih (k + 1) m (by simpa [stackCount] using h)
        simp [List.countP_cons, isNumTok, isOpTok] at h2 ⊢
        omega

lemma stackCount_pos :
    ∀ (ts : List Token) (n m : Nat), stackCount ts (n + 1) = some m → 1 ≤ m := by
  intro ts
  induction ts with
  | nil =>
    intro n m h
    simp only [stackCount, Option.some.injEq] at h
    omega
  | cons t ts ih =>
    intro n m h
    cases t with
    | num x => exact ih (n + 1) m (by simpa [stackCount] using h)
    | op o =>
      match n with
      | 0 => simp [stackCount] at h
      | k + 1 => exact ih k m (by simpa [stackCount] using h)

lemma compute_of_stackCount_pos (e : Equation) (m : Nat)
    (h : stackCount e.tokens 0 = some (m + 1)) :
    (∃ r, e.compute = .ok r) ∨ e.compute = .error .divisionByZero := by
  have h0 : stackCount e.tokens (List.length ([] : List ℚ)) = some (m + 1) := by simpa using h
  rcases computeAux_of_stackCount_some e.tokens [] (m + 1) h0 with ⟨s2, hs2, hlen⟩ | hdiv
  · left
    have hne : s2 ≠ [] := by
      intro hnil
      rw [hnil] at hlen
      simp at hlen
    refine ⟨s2.getLast hne, ?_⟩
    simp [Equation.compute, hs2, List.getLast?_eq_getLast s2 hne]
  · right
    simp [Equation.compute, hdiv]

lemma compute_of_stackCount_none (e : Equation) (h : stackCount e.tokens 0 = none) :
    e.compute = .error .stackUnderflow ∨ e.compute = .error .divisionByZero := by
  have h0 : stackCount e.tokens (List.length ([] : List ℚ)) = none := by simpa using h
  rcases computeAux_of_stackCount_none e.tokens [] h0 with hu | hd
  · left; simp [Equation.compute, hu]
  · right; simp [Equation.compute, hd]

lemma compute_of_stackCount_zero (e : Equation) (h : stackCount e.tokens 0 = some 0) :
    e.compute = .error .emptyStack := by
  obtain ⟨ts⟩ := e
  cases ts with
  | nil => rfl
  | cons t ts2 =>
    cases t with
    | num x =>
      have h2 : stackCount ts2 (0 + 1) = some 0 := by simpa [stackCount] using h
      exact absurd (stackCount_pos ts2 0 0 h2) (by norm_num)
    | op o => simp [stackCount] at h

lemma sortRat_perm_eq {l1 l2 : List ℚ} (h : List.Perm l1 l2) : sortRat l1 = sortRat l2 :=
  List.eq_of_perm_of_sorted
    ((List.perm_insertionSort _ l1).trans (h.trans (List.perm_insertionSort _ l2).symm))
    (List.sorted_insertionSort _ l1) (List.sorted_insertionSort _ l2)

lemma filter_orderedInsert_score (q : ℚ) (a : ScoredCandidate) (l : List ScoredCandidate) :
    (List.orderedInsert scoreGE a l).filter (fun c => decide (c.score = q)) =
      (a :: l).filter (fun c => decide (c.score = q)) := by
  induction l with
  | nil => simp
  | cons b t ih =>
    by_cases hab : scoreGE a b
    · simp [List.orderedInsert, hab]
    · have hlt : a.score < b.score := lt_of_not_le hab
      by_cases haq : a.score = q
      · have hbq : b.score ≠ q := by
          intro hq
          rw [haq] at hlt
          rw [hq] at hlt
          exact lt_irrefl q hlt
        simp [List.orderedInsert, hab, List.filter_cons, haq, hbq, ih]
      · simp [List.orderedInsert, hab, List.filter_cons, haq, ih]

lemma filter_pruneSort_score (q : ℚ) (l : List ScoredCandidate) :
    (pruneSort l).filter (fun c => decide (c.score = q)) =
      l.filter (fun c => decide (c.score = q)) := by
  induction l with
  | nil => rfl
  | cons a t ih =>
    have h1 : pruneSort (a :: t) = List.orderedInsert scoreGE a (pruneSort t) := rfl
    rw [h1, filter_orderedInsert_score]
    simp only [List.filter_cons]
    rw [ih]

lemma score_formula (r : ℚ) :
    0 < 1 / (1 + |24 - r|) ∧ 1 / (1 + |24 - r|) ≤ 1 ∧
      (1 / (1 + |24 - r|) = 1 ↔ r = 24) := by
  have h0 : 0 ≤ |24 - r| := abs_nonneg _
  have hp : 0 < 1 + |24 - r| := by linarith
  refine ⟨by positivity, (div_le_one hp).mpr (by linarith), ?_⟩
  rw [div_eq_one_iff_eq (ne_of_gt hp)]
  constructor
  · intro h
    have habs : |24 - r| = 0 := by linarith
    have := abs_eq_zero.mp habs
    linarith
  · intro h
    subst h
    norm_num

lemma take_ne_nil_of_ne_nil {α : Type} {l : List α} (n : ℕ) (h : l ≠ []) (hn : n ≠ 0) :
    l.take n ≠ [] := by
  match l, h with
  | a :: as, _ =>
    match n, hn with
    | m + 1, _ => simp [List.take]

lemma heuTriple_eq {a b c d : ℤ} {oc : Op × Op × Op} {e : Equation}
    (h : heuTriple a b c d oc = some e) :
    e = Equation.mk [Token.num (a : ℚ), Token.num (b : ℚ), Token.op oc.1,
      Token.num (c : ℚ), Token.op oc.2.1, Token.num (d : ℚ), Token.op oc.2.2] := by
  simp only [heuTriple] at h
  split at h
  · split at h
    · exact (Option.some.inj h).symm
    · exact absurd h (by simp)
  · exact absurd h (by simp)

lemma generate_heuristic_valid (numbers : List ℤ) :
    ∀ e ∈ generate_heuristic_candidates numbers,
      is_valid_equation e.tokens numbers = true := by
  intro e he
  have he2 : e ∈ heuristicPool numbers := List.mem_of_mem_take he
  rw [heuristicPool] at he2
  obtain ⟨nums, hnums, he3⟩ := List.mem_flatMap.mp he2
  obtain ⟨oc, _, hval⟩ := List.mem_filterMap.mp he3
  have hperm : List.Perm nums numbers := List.mem_permutations.mp hnums
  split at hval
  · next a b c d =>
    have he4 := heuTriple_eq hval
    subst he4
    rw [is_valid_equation]
    apply decide_eq_true
    have hused : usedNumbers [Token.num (a : ℚ), Token.num (b : ℚ), Token.op oc.1,
        Token.num (c : ℚ), Token.op oc.2.1, Token.num (d : ℚ), Token.op oc.2.2] =
        ratOfInts [a, b, c, d] := rfl
    have hmap : List.Perm (ratOfInts [a, b, c, d]) (ratOfInts numbers) :=
      List.Perm.map (fun n : ℤ => (n : ℚ)) hperm
    calc sortRat (usedNumbers _) = sortRat (ratOfInts [a, b, c, d]) := by rw [hused]
      _ = sortRat (ratOfInts numbers) := sortRat_perm_eq hmap
  · exact absurd hval (by simp)

/-- C3 (amended): for a structurally well-formed RPN sequence (which forces N literals
and N−1 operators), Equation.compute returns a single value unless a division by zero
occurs, in which case it fails with the propagated arithmetic error; an operator
encountered with fewer than two stack values makes it fail (stack underflow, or a
division by zero hit earlier in the scan); an empty final stack fails. Contrary to the
original claim, a final stack with MORE than one value is not an error: compute then
returns the bottom stack element (see the counterexample theorem). -/
theorem c3_compute_amended (e : Equation) :
    (WellFormedRPN e.tokens →
      (((∃ r, e.compute = .ok r) ∨ e.compute = .error .divisionByZero) ∧
        e.tokens.countP isNumTok = e.tokens.countP isOpTok + 1)) ∧
    (stackCount e.tokens 0 = none →
      (e.compute = .error .stackUnderflow ∨ e.compute = .error .divisionByZero)) ∧
    (∀ m, stackCount e.tokens 0 = some (m + 1) →
      ((∃ r, e.compute = .ok r) ∨ e.compute = .error .divisionByZero)) ∧
    (stackCount e.tokens 0 = some 0 → e.compute = .error .emptyStack) := by
  refine ⟨fun hwf => ⟨compute_of_stackCount_pos e 0 hwf, ?_⟩,
    compute_of_stackCount_none e, fun m h => compute_of_stackCount_pos e m h,
    compute_of_stackCount_zero e⟩
  have := stackCount_counts e.tokens 0 1 hwf
  omega

/-- C3 counterexample: the token sequence [1.0, 2.0] leaves a final stack of two
values (a literal/operator imbalance), yet compute returns 1.0 — the bottom stack
value, Python stack[0] — instead of failing with MalformedExpressionError as the
claim requires. -/
theorem c3_counterexample :
    stackCount [Token.num 1, Token.num 2] 0 = some 2 ∧
    (Equation.mk [Token.num 1, Token.num 2]).compute = .ok 1 := ⟨rfl, rfl⟩

/-- C3 witness: the amended theorem applied to the well-formed sequence [3, 4, +]. -/
theorem c3_witness :
    WellFormedRPN [Token.num 3, Token.num 4, Token.op .add] ∧
    (((∃ r, (Equation.mk [Token.num 3, Token.num 4, Token.op .add]).compute = .ok r) ∨
        (Equation.mk [Token.num 3, Token.num 4, Token.op .add]).compute =
          .error .divisionByZero) ∧
      List.countP isNumTok [Token.num 3, Token.num 4, Token.op .add] =
        List.countP isOpTok [Token.num 3, Token.num 4, Token.op .add] + 1) :=
  ⟨by decide,
    (c3_compute_amended (Equation.mk [Token.num 3, Token.num 4, Token.op .add])).1 (by decide)⟩

/-- C5: compute_score returns score 0 with the operand-mismatch feedback, without
evaluating, whenever the sorted literal multiset differs from the sorted problem
multiset; on a multiset match with successful evaluation to r it scores
1/(1+|24−r|), which equals 1 exactly when r = 24, is positive, and is at most 1. -/
theorem c5_compute_score (problem : String) (c : Candidate) :
    (sortRat (usedNumbers c.candidate.tokens) ≠ sortRat (ratOfInts (parseNumbers problem)) →
      compute_score problem c =
        { candidate := c.candidate, score := 0, feedback := mismatchFeedback }) ∧
    (∀ r : ℚ,
      sortRat (usedNumbers c.candidate.tokens) = sortRat (ratOfInts (parseNumbers problem)) →
      c.candidate.compute = .ok r →
      (compute_score problem c).score = 1 / (1 + |24 - r|) ∧
        ((compute_score problem c).score = 1 ↔ r = 24) ∧
        0 < (compute_score problem c).score ∧ (compute_score problem c).score ≤ 1) := by
  constructor
  · intro hne
    simp [compute_score, hne]
  · intro r hmatch hok
    have hval : compute_score problem c =
        { candidate := c.candidate, score := 1 / (1 + |24 - r|),
          feedback := "Result: " ++ toString r } := by
      simp [compute_score, hmatch, hok]
    rw [hval]
    obtain ⟨h1, h2, h3⟩ := score_formula r
    exact ⟨rfl, h3, h1, h2⟩

/-- C5 witness: the theorem applied to the spec examples — problem "1 1 1 1" with an
expression using only three 1s (mismatch, score 0), and problem "4 6 6 6" with
(6*4)+6−6 = 24 (score exactly 1). -/
theorem c5_witness :
    (sortRat (usedNumbers [Token.num 1, Token.num 1, Token.op .add, Token.num 1,
          Token.op .add]) ≠
        sortRat (ratOfInts (parseNumbers "1 1 1 1")) ∧
      compute_score "1 1 1 1"
          { candidate := Equation.mk [Token.num 1, Token.num 1, Token.op .add,
              Token.num 1, Token.op .add] } =
        { candidate := Equation.mk [Token.num 1, Token.num 1, Token.op .add,
            Token.num 1, Token.op .add], score := 0, feedback := mismatchFeedback }) ∧
    ((Equation.mk [Token.num 6, Token.num 4, Token.op .mul, Token.num 6, Token.op .add,
        Token.num 6, Token.op .sub]).compute = .ok 24 ∧
      (compute_score "4 6 6 6"
          { candidate := Equation.mk [Token.num 6, Token.num 4, Token.op .mul,
              Token.num 6, Token.op .add, Token.num 6, Token.op .sub] }).score = 1) := by
  have hp1 : parseNumbers "1 1 1 1" = [1, 1, 1, 1] := by decide
  have hp2 : parseNumbers "4 6 6 6" = [4, 6, 6, 6] := by decide
  have hne : sortRat (usedNumbers [Token.num 1, Token.num 1, Token.op .add, Token.num 1,
      Token.op .add]) ≠ sortRat (ratOfInts (parseNumbers "1 1 1 1")) := by
    rw [hp1]
    norm_num [sortRat, usedNumbers, ratOfInts, List.insertionSort, List.orderedInsert]
  have hok : (Equation.mk [Token.num 6, Token.num 4, Token.op .mul, Token.num 6,
      Token.op .add, Token.num 6, Token.op .sub]).compute = .ok 24 := by
    norm_num [Equation.compute, computeAux, applyOp]
  have hmatch : sortRat (usedNumbers [Token.num 6, Token.num 4, Token.op .mul,
      Token.num 6, Token.op .add, Token.num 6, Token.op .sub]) =
      sortRat (ratOfInts (parseNumbers "4 6 6 6")) := by
    rw [hp2]
    norm_num [sortRat, usedNumbers, ratOfInts, List.insertionSort, List.orderedInsert]
  refine ⟨⟨hne, (c5_compute_score "1 1 1 1" _).1 hne⟩, hok, ?_⟩
  exact ((c5_compute_score "4 6 6 6" _).2 24 hmatch hok).2.1.mpr rfl

/-- C8: prune returns the stable descending top-beam_size of the scored candidates
(stability captured by per-score filter invariance of the sort), clears the scored
list, and — with the candidates list empty, as the score node leaves it — the applied
update installs the pruned list as the new frontier and increments depth by exactly
1. -/
theorem c8_prune (s : ToTState) (config : RunnableConfig) :
    (prune s config).candidates =
      (pruneSort s.scored_candidates).take (ensure_configurable_heu config).beam_size ∧
    List.Perm (pruneSort s.scored_candidates) s.scored_candidates ∧
    List.Sorted scoreGE (pruneSort s.scored_candidates) ∧
    (∀ q : ℚ, (pruneSort s.scored_candidates).filter (fun c => decide (c.score = q)) =
      s.scored_candidates.filter (fun c => decide (c.score = q))) ∧
    (prune s config).scored_candidates = UpdateArg.clear ∧
    (prune s config).depth = 1 ∧
    (s.candidates = [] →
      (applyPrune s config).candidates =
        (pruneSort s.scored_candidates).take (ensure_configurable_heu config).beam_size ∧
      (applyPrune s config).scored_candidates = [] ∧
      (applyPrune s config).depth = s.depth + 1) := by
  refine ⟨rfl, List.perm_insertionSort _ _, List.sorted_insertionSort _ _,
    fun q => filter_pruneSort_score q _, rfl, rfl, fun hc => ⟨?_, rfl, rfl⟩⟩
  simp [applyPrune, prune, update_candidates, hc]

/-- C8 witness: the theorem applied to the spec example — scores [0.9, 0.9, 0.3, 0.1]
with beam_size 2 keep the two 0.9 entries in their original relative order, the
scored list is cleared, and depth rises from 5 to 6. -/
theorem c8_witness :
    c8State.candidates = [] ∧
    (applyPrune c8State c8Config).candidates =
      (pruneSort c8State.scored_candidates).take
        (ensure_configurable_heu c8Config).beam_size ∧
    (applyPrune c8State c8Config).scored_candidates = [] ∧
    (applyPrune c8State c8Config).depth = c8State.depth + 1 ∧
    (pruneSort c8State.scored_candidates).take
      (ensure_configurable_heu c8Config).beam_size = [c8A, c8B] := by
  have h := (c8_prune c8State c8Config).2.2.2.2.2.2 rfl
  refine ⟨rfl, h.1, h.2.1, h.2.2, ?_⟩
  norm_num [c8State, c8A, c8B, c8C, c8D, c8Config, pruneSort, ensure_configurable_heu,
    List.insertionSort, List.orderedInsert, scoreGE]

/-- C9: compute_score is invariant under permuting the parsed problem numbers (only
the multiset matters); in particular score("1 2 3 4", c) = score("4 3 2 1", c) for
every candidate c. -/
theorem c9_order_invariance :
    (∀ (p1 p2 : String) (c : Candidate),
      List.Perm (parseNumbers p1) (parseNumbers p2) →
      compute_score p1 c = compute_score p2 c) ∧
    ∀ c : Candidate, compute_score "1 2 3 4" c = compute_score "4 3 2 1" c := by
  have hgen : ∀ (p1 p2 : String) (c : Candidate),
      List.Perm (parseNumbers p1) (parseNumbers p2) →
      compute_score p1 c = compute_score p2 c := by
    intro p1 p2 c h
    have hmap : List.Perm (ratOfInts (parseNumbers p1)) (ratOfInts (parseNumbers p2)) :=
      List.Perm.map (fun n : ℤ => (n : ℚ)) h
    have hsort : sortRat (ratOfInts (parseNumbers p1)) =
        sortRat (ratOfInts (parseNumbers p2)) := sortRat_perm_eq hmap
    simp only [compute_score, hsort]
  refine ⟨hgen, fun c => hgen _ _ c ?_⟩
  have h1 : parseNumbers "1 2 3 4" = [1, 2, 3, 4] := by decide
  have h2 : parseNumbers "4 3 2 1" = [4, 3, 2, 1] := by decide
  rw [h1, h2]
  decide

/-- C9 witness: the concrete instance of the theorem at the empty-token candidate. -/
theorem c9_witness :
    compute_score "1 2 3 4" { candidate := Equation.mk [] } =
      compute_score "4 3 2 1" { candidate := Equation.mk [] } :=
  c9_order_invariance.2 { candidate := Equation.mk [] }

/-- C1: evaluation at the failing input — a final state whose frontier is empty after
prune (every proposal call failed or every candidate was invalid). The heu
termination check does return TERMINATE, but the CoT termination check raises
IndexError on candidates[0], and the best-candidate extraction of
run_tot_on_problem raises ValueError from max() on the empty candidate list instead
of reporting an unsolved outcome. -/
theorem c1_empty_frontier :
    should_terminate_heu { problem := "1 1 4 6", candidates := [], depth := 1 } {} =
      TermHeu.endRun ∧
    should_terminate_CoT { problem := "1 1 4 6", candidates := [], depth := 1 } {} =
      .error .indexError ∧
    run_tot_extract { problem := "1 1 4 6", candidates := [], depth := 1 } {} =
      .error .valueError :=
  ⟨rfl, rfl, rfl⟩

/-- C2: evaluation at the failing input — a non-terminal CoT round does dispatch
exactly one expansion per frontier member, but stores the member under the mistyped
key somevalseed; the seed key that expand reads is absent in the dispatched payload,
so the request hint sent to the proposal source is empty: seed-guided refinement is
silently lost after round 0. -/
theorem c2_seed_key_typo :
    should_terminate_CoT cotState {} = .ok (.sends [cotPayload]) ∧
    cotPayload.somevalseed = some cotScored ∧
    cotPayload.seed = none ∧
    (cot_request cotPayload {}).candidate = "" := by
  refine ⟨?_, rfl, rfl, rfl⟩
  rw [should_terminate_CoT]
  norm_num [cotState, cotScored, cotPayload, ensure_configurable_CoT,
    ScoredCandidate.toCandidate]

/-- C7: evaluation at the failing input — the heu batch run supplies threshold 0.99
inside the configurable search fields, yet _ensure_configurable reads the top-level
config mapping and so resolves the default 0.9; a frontier whose best score is 0.95
(below the supplied 0.99) is nevertheless terminated as solved by the termination
check. -/
theorem c7_threshold_ignored :
    heuBatchConfig.configurable.threshold = some 0.99 ∧
    heuBatchConfig.threshold = none ∧
    (ensure_configurable_heu heuBatchConfig).threshold = 0.9 ∧
    (0.95 : ℚ) < 0.99 ∧
    should_terminate_heu
      { problem := "1 1 4 6",
        candidates := [{ candidate := Equation.mk [], score := 0.95, feedback := "f" }],
        depth := 1 } heuBatchConfig = TermHeu.endRun := by
  refine ⟨rfl, rfl, rfl, by norm_num, ?_⟩
  rw [should_terminate_heu]
  norm_num [heuBatchConfig, ensure_configurable_heu]

/-- C6 (amended): a failing proposal source never propagates out of expand. The CoT
expand returns an empty candidate list on failure; the heu expand returns an empty
list on failure when a seed is present; an empty successful response yields an empty
list in both variants; but — contrary to the claim — the heu expand of a seedless
round returns the precomputed heuristic candidates, not an empty list, when the
source fails. -/
theorem c6_expand_failure (solver : SolverRequest → Except Unit GuessEquations)
    (stc : ExpansionStateCoT) (sth : ExpansionState) (config : RunnableConfig) :
    (solver (cot_request stc config) = .error () → expand_CoT solver stc config = []) ∧
    (solver (heu_request sth config) = .error () → sth.seed.isSome →
      expand_heu solver sth config = []) ∧
    (∀ rsn, solver (cot_request stc config) = .ok { reasoning := rsn, equations := [] } →
      expand_CoT solver stc config = []) ∧
    (∀ rsn, solver (heu_request sth config) = .ok { reasoning := rsn, equations := [] } →
      expand_heu solver sth config = []) ∧
    (solver (heu_request sth config) = .error () → sth.seed = none →
      expand_heu solver sth config =
        (generate_heuristic_candidates (parseNumbers sth.problem)).map
          fun e => ({ candidate := e } : Candidate)) := by
  refine ⟨?_, ?_, ?_, ?_, ?_⟩
  · intro h
    simp [expand_CoT, h]
  · intro h hs
    cases hseed : sth.seed with
    | some sd => simp [expand_heu, h, heu_pre, hseed]
    | none => rw [hseed] at hs; simp at hs
  · intro rsn h
    simp [expand_CoT, h]
  · intro rsn h
    simp [expand_heu, h]
  · intro h hs
    simp [expand_heu, h, heu_pre, hs]

/-- C6 counterexample: with the proposal source failing on a seedless round, heu
expand for problem "1 1 4 6" returns the nonempty heuristic candidate list (e.g. it
holds 1*1*4*6 = 24) instead of the empty list the claim requires. -/
theorem c6_counterexample :
    expand_heu (fun _ => .error ()) { problem := "1 1 4 6" } {} ≠ [] := by
  have hp : parseNumbers "1 1 4 6" = [1, 1, 4, 6] := by decide
  have hred : expand_heu (fun _ => .error ()) { problem := "1 1 4 6" } {} =
      (generate_heuristic_candidates [1, 1, 4, 6]).map
        (fun e => ({ candidate := e } : Candidate)) := by
    simp [expand_heu, heu_pre, hp]
  rw [hred]
  have hcomp : (Equation.mk [Token.num ((1 : ℤ) : ℚ), Token.num ((1 : ℤ) : ℚ),
      Token.op .mul, Token.num ((4 : ℤ) : ℚ), Token.op .mul, Token.num ((6 : ℤ) : ℚ),
      Token.op .mul]).compute = .ok 24 := by
    norm_num [Equation.compute, computeAux, applyOp]
  have htrip : heuTriple 1 1 4 6 (Op.mul, Op.mul, Op.mul) =
      some (Equation.mk [Token.num ((1 : ℤ) : ℚ), Token.num ((1 : ℤ) : ℚ),
        Token.op .mul, Token.num ((4 : ℤ) : ℚ), Token.op .mul, Token.num ((6 : ℤ) : ℚ),
        Token.op .mul]) := by
    rw [heuTriple]
    rw [hcomp]
    norm_num
  have hmem : (Equation.mk [Token.num ((1 : ℤ) : ℚ), Token.num ((1 : ℤ) : ℚ),
      Token.op .mul, Token.num ((4 : ℤ) : ℚ), Token.op .mul, Token.num ((6 : ℤ) : ℚ),
      Token.op .mul]) ∈ heuristicPool [1, 1, 4, 6] := by
    rw [heuristicPool]
    apply List.mem_flatMap.mpr
    refine ⟨[1, 1, 4, 6], List.mem_permutations.mpr (List.Perm.refl _), ?_⟩
    apply List.mem_filterMap.mpr
    exact ⟨(Op.mul, Op.mul, Op.mul), by decide, htrip⟩
  have hpool : heuristicPool [1, 1, 4, 6] ≠ [] := List.ne_nil_of_mem hmem
  have hgen : generate_heuristic_candidates [1, 1, 4, 6] ≠ [] :=
    take_ne_nil_of_ne_nil 10 hpool (by norm_num)
  intro hnil
  rw [List.map_eq_nil_iff] at hnil
  exact hgen hnil

/-- C6 witness: the amended theorem applied with a constantly failing source — CoT
expand yields an empty list, and heu expand with a seed present yields an empty
list. -/
theorem c6_witness :
    expand_CoT (fun _ => .error ())
      { toExpansionState := { problem := "1 1 4 6" } } {} = [] ∧
    expand_heu (fun _ => .error ())
      { problem := "1 1 4 6", seed := some { candidate := Equation.mk [] } } {} = [] :=
  ⟨(c6_expand_failure (fun _ => .error ())
      { toExpansionState := { problem := "1 1 4 6" } }
      { problem := "1 1 4 6", seed := some { candidate := Equation.mk [] } } {}).1 rfl,
   (c6_expand_failure (fun _ => .error ())
      { toExpansionState := { problem := "1 1 4 6" } }
      { problem := "1 1 4 6", seed := some { candidate := Equation.mk [] } } {}).2.1 rfl rfl⟩

/-- C10: every candidate heu expand returns satisfies the operand-multiset check
against the problem numbers — LLM proposals are filtered by is_valid_equation before
becoming Candidates (invalid ones silently dropped, never scored), and the heuristic
fallback candidates use each number exactly once by construction. -/
theorem c10_expand_valid (solver : SolverRequest → Except Unit GuessEquations)
    (st : ExpansionState) (config : RunnableConfig) :
    (expand_heu solver st config).all
      (fun c => is_valid_equation c.candidate.tokens (parseNumbers st.problem)) = true := by
  rw [List.all_eq_true]
  intro c hc
  rw [expand_heu] at hc
  cases hres : solver (heu_request st config) with
  | ok sub =>
    rw [hres] at hc
    simp only [List.mem_map] at hc
    obtain ⟨e, he, rfl⟩ := hc
    have := (List.mem_filter.mp he).2
    simpa using this
  | error err =>
    rw [hres] at hc
    simp only at hc
    rw [heu_pre] at hc
    cases hseed : st.seed with
    | some sd =>
      rw [hseed] at hc
      simp at hc
    | none =>
      rw [hseed] at hc
      simp only [List.mem_map] at hc
      obtain ⟨e, he, rfl⟩ := hc
      simpa using generate_heuristic_valid (parseNumbers st.problem) e he

/-- C4 (spec-modelled): the engine loop fails with SearchExhaustedError exactly when
the hard iteration ceiling (the fuel, a parameter independent of max_depth) elapses
without the termination check ever firing, and that failure is distinct from every
normal TERMINATE outcome. -/
theorem c4_iteration_ceiling (solver : SolverRequest → Except Unit GuessEquations)
    (problem : String) (config : RunnableConfig) (fuel : ℕ) (s : LoopState) :
    (runLoop solver problem config fuel s = .error .searchExhausted ↔
      ∀ k, k < fuel →
        roundEnds problem config ((stepRound solver problem config)^[k + 1] s) = false) ∧
    ∀ out : LoopState,
      (Except.error .searchExhausted : Except SearchError LoopState) ≠ .ok out := by
  refine ⟨?_, fun out h => Except.noConfusion h⟩
  induction fuel generalizing s with
  | zero => simp [runLoop]
  | succ n ih =>
    simp only [runLoop]
    cases hend : roundEnds problem config (stepRound solver problem config s) with
    | true =>
      simp only [hend, if_true]
      constructor
      · intro h
        exact absurd h (by simp)
      · intro hall
        have h0 := hall 0 (Nat.succ_pos n)
        rw [Function.iterate_one] at h0
        rw [h0] at hend
        exact absurd hend (by simp)
    | false =>
      simp only [hend, Bool.false_eq_true, if_false]
      rw [ih (stepRound solver problem config s)]
      constructor
      · intro hall k hk
        cases k with
        | zero =>
          rw [Function.iterate_one]
          exact hend
        | succ k2 =>
          have h2 := hall k2 (by omega)
          rw [Function.iterate_succ_apply]
          exact h2
      · intro hall k hk
        have h2 := hall (k + 1) (by omega)
        rw [Function.iterate_succ_apply] at h2
        exact h2

/-- C4 witness: a one-round iteration ceiling exceeded by a run whose single frontier
member stays below the threshold, producing SearchExhaustedError. -/
theorem c4_witness :
    runLoop (fun _ => .ok { reasoning := "", equations := [] }) "" {} 1
      { frontier := [{ candidate := Equation.mk [], score := 0, feedback := "f" }],
        depth := 3 } = .error .searchExhausted := by
  apply (c4_iteration_ceiling (fun _ => .ok { reasoning := "", equations := [] }) "" {} 1
    { frontier := [{ candidate := Equation.mk [], score := 0, feedback := "f" }],
      depth := 3 }).1.mpr
  intro k hk
  have hk0 : k = 0 := by omega
  subst hk0
  rw [Function.iterate_one]
  norm_num [roundEnds, stepRound, expand_heu, compute_score, should_terminate_heu,
    ensure_configurable_heu, ScoredCandidate.toCandidate, pruneSort,
    List.insertionSort, List.orderedInsert, Equation.compute, computeAux,
    parseNumbers, splitWSAux, usedNumbers, ratOfInts, sortRat, scoreGE]

end GameOf24
